import Mathlib

/-!
Verification of the blogamer content pipeline (src/lib.rs).

The Rust source is shallowly embedded: pure functions become Lean
functions, the mutable `Context` is threaded explicitly, byte buffers
(`Vec<u8>`) are `List Nat` with every element a byte value, and the
external collaborators (markdown parser, HTML serializer, YAML
deserializer, image codec, template renderer) are parameters of the
model, since they are library code outside this repository.
-/

set_option maxRecDepth 100000

namespace Blogamer

/-! ## Generic list and string helpers

`List Char` level models of the Rust `str` operations used by the
source: `strip_prefix`, `split_once` (both for a string pattern and a
char pattern).  Rust strings are UTF-8; since the patterns used by the
source are pure ASCII, matching on `Char` lists coincides with Rust's
byte-level matching on well-formed UTF-8 data.
-/

/-- `str::strip_prefix`: remove `pat` from the front of `l` if it is there. -/
def dropFront [DecidableEq α] (pat l : List α) : Option (List α) :=
  if pat.isPrefixOf l then some (l.drop pat.length) else none

/-- `str::split_once` with a string pattern: split at the first
occurrence of `pat`, returning the parts before and after it. -/
def splitOnceL [DecidableEq α] (pat : List α) : List α → Option (List α × List α)
  | [] => if pat.isPrefixOf [] then some ([], []) else none
  | c :: rest =>
    if pat.isPrefixOf (c :: rest) then some ([], (c :: rest).drop pat.length)
    else (splitOnceL pat rest).map (fun p => (c :: p.1, p.2))

/-- `str::split_once` with a char pattern. -/
def splitOnceChar (c : Char) (l : List Char) : Option (List Char × List Char) :=
  splitOnceL [c] l

/-- String wrapper for `dropFront`. -/
def strDropFront (pat s : String) : Option String :=
  (dropFront pat.data s.data).map String.mk

/-- String wrapper for `splitOnceL`. -/
def strSplitOnce (pat s : String) : Option (String × String) :=
  (splitOnceL pat.data s.data).map (fun p => (String.mk p.1, String.mk p.2))

/-- `pat` occurs in `l` starting at index `i`. -/
def OccursAt [DecidableEq α] (pat l : List α) (i : Nat) : Prop :=
  pat.isPrefixOf (l.drop i)

instance [DecidableEq α] (pat l : List α) (i : Nat) : Decidable (OccursAt pat l i) := by
  unfold OccursAt; infer_instance

/-! ## The associative store

`Context.static_files` is a `HashMap<String, Vec<u8>>`; we model it as
an association list with the `HashMap::insert` semantics: inserting an
existing key replaces its value in place (the previous value is
discarded — the Rust code writes `let _ = self.static_files.insert(..)`),
inserting a fresh key appends it. -/

def insertKV (k : String) (v : List Nat) :
    List (String × List Nat) → List (String × List Nat)
  | [] => [(k, v)]
  | (k', v') :: rest =>
    if k = k' then (k, v) :: rest else (k', v') :: insertKV k v rest

def lookupKV (k : String) : List (String × List Nat) → Option (List Nat)
  | [] => none
  | (k', v') :: rest => if k = k' then some v' else lookupKV k rest

/-! ## SHA-256 (the `sha2` crate's `Sha256::digest`)

A byte-level implementation of FIPS 180-4 SHA-256 over `List Nat`
(bytes).  32-bit words are `Nat` kept below `2^32` by explicit
masking. -/

def w32 : Nat := 4294967296

def add32 (a b : Nat) : Nat := (a + b) % w32

def rotr32 (n x : Nat) : Nat := ((x >>> n) ||| (x <<< (32 - n))) % w32

def shaCh (e f g : Nat) : Nat := (e &&& f) ^^^ ((e ^^^ (w32 - 1)) &&& g)

def shaMaj (a b c : Nat) : Nat := (a &&& b) ^^^ (a &&& c) ^^^ (b &&& c)

def bigSigma0 (x : Nat) : Nat := rotr32 2 x ^^^ rotr32 13 x ^^^ rotr32 22 x

def bigSigma1 (x : Nat) : Nat := rotr32 6 x ^^^ rotr32 11 x ^^^ rotr32 25 x

def smallSigma0 (x : Nat) : Nat := rotr32 7 x ^^^ rotr32 18 x ^^^ (x >>> 3)

def smallSigma1 (x : Nat) : Nat := rotr32 17 x ^^^ rotr32 19 x ^^^ (x >>> 10)

/-- The 64 round constants of FIPS 180-4 (fractional parts of the cube
roots of the first 64 primes), in decimal. -/
def shaK : List Nat :=
  [1116352408, 1899447441, 3049323471, 3921009573, 961987163,
   1508970993, 2453635748, 2870763221, 3624381080, 310598401,
   607225278, 1426881987, 1925078388, 2162078206, 2614888103,
   3248222580, 3835390401, 4022224774, 264347078, 604807628,
   770255983, 1249150122, 1555081692, 1996064986, 2554220882,
   2821834349, 2952996808, 3210313671, 3336571891, 3584528711,
   113926993, 338241895, 666307205, 773529912, 1294757372,
   1396182291, 1695183700, 1986661051, 2177026350, 2456956037,
   2730485921, 2820302411, 3259730800, 3345764771, 3516065817,
   3600352804, 4094571909, 275423344, 430227734, 506948616,
   659060556, 883997877, 958139571, 1322822218, 1537002063,
   1747873779, 1955562222, 2024104815, 2227730452, 2361852424,
   2428436474, 2756734187, 3204031479, 3329325298]

structure ShaState where
  a : Nat
  b : Nat
  c : Nat
  d : Nat
  e : Nat
  f : Nat
  g : Nat
  hh : Nat

/-- The initial hash value of FIPS 180-4 (fractional parts of the
square roots of the first 8 primes), in decimal. -/
def shaInit : ShaState :=
  ⟨1779033703, 3144134277, 1013904242, 2773480762,
   1359893119, 2600822924, 528734635, 1541459225⟩

/-- Group bytes into big-endian 32-bit words. -/
def beWords : List Nat → List Nat
  | a :: b :: c :: d :: rest => (((a * 256 + b) * 256 + c) * 256 + d) :: beWords rest
  | _ => []

/-- Extend the 16 message-schedule words to 64 (`count` more words). -/
def extendSchedule : Nat → Array Nat → Array Nat
  | 0, w => w
  | count + 1, w =>
    let n := w.size
    let next := add32 (add32 (smallSigma1 (w.getD (n - 2) 0)) (w.getD (n - 7) 0))
      (add32 (smallSigma0 (w.getD (n - 15) 0)) (w.getD (n - 16) 0))
    extendSchedule count (w.push next)

/-- One compression round. -/
def shaRound (s : ShaState) (kw : Nat × Nat) : ShaState :=
  let t1 := add32 s.hh (add32 (bigSigma1 s.e)
    (add32 (shaCh s.e s.f s.g) (add32 kw.1 kw.2)))
  let t2 := add32 (bigSigma0 s.a) (shaMaj s.a s.b s.c)
  ⟨add32 t1 t2, s.a, s.b, s.c, add32 s.d t1, s.e, s.f, s.g⟩

/-- Compress one 64-byte block into the running hash state. -/
def shaCompress (s : ShaState) (block : List Nat) : ShaState :=
  let w := extendSchedule 48 (Array.mk (beWords block))
  let r := (shaK.zip w.toList).foldl shaRound s
  ⟨add32 s.a r.a, add32 s.b r.b, add32 s.c r.c, add32 s.d r.d,
   add32 s.e r.e, add32 s.f r.f, add32 s.g r.g, add32 s.hh r.hh⟩

/-- Fold the compression function over consecutive 64-byte blocks; the
`fuel` counter only bounds the recursion (each step consumes 64 bytes,
so `l.length` is always enough fuel). -/
def shaBlocksGo : Nat → ShaState → List Nat → ShaState
  | 0, s, _ => s
  | fuel + 1, s, l =>
    if l = [] then s else shaBlocksGo fuel (shaCompress s (l.take 64)) (l.drop 64)

def shaBlocks (s : ShaState) (l : List Nat) : ShaState :=
  shaBlocksGo l.length s l

/-- Big-endian bytes of one 32-bit word. -/
def wordBytes (x : Nat) : List Nat :=
  [x / 2 ^ 24 % 256, x / 2 ^ 16 % 256, x / 2 ^ 8 % 256, x % 256]

/-- 64-bit big-endian length field of the padding. -/
def lenBytes64 (x : Nat) : List Nat :=
  [x / 2 ^ 56 % 256, x / 2 ^ 48 % 256, x / 2 ^ 40 % 256, x / 2 ^ 32 % 256,
   x / 2 ^ 24 % 256, x / 2 ^ 16 % 256, x / 2 ^ 8 % 256, x % 256]

/-- FIPS 180-4 padding: append `0x80`, zeros to 56 mod 64, then the
bit length as 8 big-endian bytes. -/
def shaPad (msg : List Nat) : List Nat :=
  msg ++ 0x80 :: List.replicate ((120 - (msg.length + 1) % 64) % 64) 0
    ++ lenBytes64 (msg.length * 8)

/-- `sha2::Sha256::digest`: the 32-byte SHA-256 digest of `msg`. -/
def sha256 (msg : List Nat) : List Nat :=
  let s := shaBlocks shaInit (shaPad msg)
  wordBytes s.a ++ wordBytes s.b ++ wordBytes s.c ++ wordBytes s.d ++
    wordBytes s.e ++ wordBytes s.f ++ wordBytes s.g ++ wordBytes s.hh

/-! ## Base58 (the `bs58` crate's `encode`)

Bitcoin alphabet, no padding: one `'1'` per leading zero byte, then
the big-endian base-58 digits of the remaining value. -/

def base58Alphabet : List Char :=
  "123456789ABCDEFGHJKLMNPQRSTUVWXYZabcdefghijkmnopqrstuvwxyz".data

/-- Big-endian base-58 digits of `n` (empty for zero); the `fuel`
counter only bounds the recursion and `n` itself is always enough. -/
def natToBase58Go : Nat → Nat → List Char
  | 0, _ => []
  | fuel + 1, n =>
    if n = 0 then []
    else natToBase58Go fuel (n / 58) ++ [base58Alphabet.getD (n % 58) '?']

def natToBase58 (n : Nat) : List Char :=
  natToBase58Go n n

def bs58Encode (bytes : List Nat) : String :=
  let zeros := (bytes.takeWhile (fun b => b = 0)).length
  let n := bytes.foldl (fun acc b => acc * 256 + b) 0
  String.mk (List.replicate zeros '1' ++ natToBase58 n)

/-- `create_hash_string` (src/lib.rs:99): base58 of the first 16 bytes
of the SHA-256 digest. -/
def create_hash_string (bytes : List Nat) : String :=
  bs58Encode ((sha256 bytes).take 16)

/-! ## Errors

The source uses `color_eyre` string errors; each `bail!` / `ok_or_eyre`
site becomes one constructor.  The spec's taxonomy groups them:
`ImageError`, `MarkdownStructureError`, `FrontmatterError`, plus the
invalid-filename error of `collect_post`. -/

inductive GenError
  | imageRead          -- "reading image" / "decoding image"
  | imageNoName        -- "image does not have name"
  | noAltText          -- "No alt text for image tag"
  | noEndTag           -- "No end tag for image"
  | noOpeningDelim     -- "post must start with `---`"
  | noClosingDelim     -- "unterminated frontmatter, needs another `---`"
  | invalidFrontmatter -- "invalid frontmatter" (serde failure)
  | badFilename        -- "invalid post filename ..., must be *.md"
deriving DecidableEq, Repr

def GenError.isMarkdownStructureError : GenError → Bool
  | .noAltText => true
  | .noEndTag => true
  | _ => false

def GenError.isFrontmatterError : GenError → Bool
  | .noOpeningDelim => true
  | .noClosingDelim => true
  | .invalidFrontmatter => true
  | _ => false

/-! ## Context and the asset store (src/lib.rs:25-48) -/

/-- CLI options; the `input`/`output` path fields are I/O glue consumed
only by the driver's filesystem calls and are not part of the model. -/
structure Opts where
  optimize : Bool

structure Context where
  opts : Opts
  static_files : List (String × List Nat)
  theme_css_path : String

/-- `Context::add_static_file` (src/lib.rs:44): builds the identifier
`"{name}-{hash}{ext}"`, inserts `(identifier, content)` into the store
(with `HashMap::insert` semantics: an existing entry under the same key
is silently replaced, its old value discarded by `let _ = ...`), and
returns `"/static/{identifier}"`.  The Rust signature is `Result` but
the body has no error path, so the model is pure. -/
def add_static_file (ctx : Context) (name ext : String) (content : List Nat) :
    String × Context :=
  let fullName := name ++ "-" ++ create_hash_string content ++ ext
  ("/static/" ++ fullName,
    { ctx with static_files := insertKV fullName content ctx.static_files })

/-! ## Markdown events (the `pulldown_cmark` event stream)

Only the constructors the rewriter inspects are distinguished; every
other tag or event is an opaque `other`. -/

inductive MdTag
  | image (dest_url : String)
  | htmlBlock
  | other (k : Nat)
deriving DecidableEq, Repr

inductive MdTagEnd
  | image
  | htmlBlock
  | other (k : Nat)
deriving DecidableEq, Repr

inductive MdEvent
  | start (t : MdTag)
  | endTag (t : MdTagEnd)
  | text (s : String)
  | html (s : String)
  | other (k : Nat)
deriving DecidableEq, Repr

structure Frontmatter where
  title : String
  date : String
deriving DecidableEq, Repr

/-! ## Image transcoder (src/lib.rs:50-96) -/

/-- The result of decoding an image once: its intrinsic dimensions plus
the byte output of `image.write_to` for each of the three formats the
source uses.  Decoding and encoding are the external `image` crate. -/
structure DecodedImage where
  height : Nat
  width : Nat
  jpegBytes : List Nat
  avifBytes : List Nat
  webpBytes : List Nat

/-- The external collaborators of the pipeline, all libraries outside
this repository, plus the two repository files that live outside `src/`
(the askama template and the theme stylesheet). -/
structure RenderEnv where
  /-- `ImageReader::open(path)?.decode()`; `none` models either failure. -/
  openDecode : String → Option DecodedImage
  /-- `pulldown_cmark::Parser::new_ext` with the tables, footnotes and
  strikethrough extensions enabled (src/lib.rs:249-251). -/
  parseMd : String → List MdEvent
  /-- `pulldown_cmark::html::push_html`, the external HTML serializer. -/
  pushHtml : List MdEvent → String
  /-- `serde_norway::from_str::<Frontmatter>`; `none` is a deserialization
  failure (missing or wrong-typed field). -/
  parseFm : String → Option Frontmatter
  /-- Modelled from the spec: the external template renderer
  (templates/post.html, a repository file not under src/) "receives
  {title, body_html, theme_asset_path} and returns a complete HTML
  document string; treated as a black box by the core". -/
  renderTemplate : String → String → String → String
  /-- Modelled from the spec: the bytes of templates/theme.css, a
  repository file not under src/, registered once per run as the theme
  asset. -/
  themeCss : List Nat

/-- Rust `Path::join`: appending a relative path with a separator (an
absolute right operand — one starting with `'/'` — replaces the base). -/
def pathJoin (base rel : String) : String :=
  if rel.data.head? = some '/' then rel else base ++ "/" ++ rel

/-- The final component of a path string (Rust `Path::file_name`); the
pipeline's image paths never end in a separator, so this is everything
after the last `'/'`, and `none` iff that is empty. -/
def pathFileName (p : String) : List Char :=
  (p.data.reverse.takeWhile (fun c => c ≠ '/')).reverse

/-- The `split_file_at_dot` rule of `std::path`: the stem is the file
name up to the last dot, except that a dot at position 0 does not begin
an extension. -/
def fileStemOf (name : List Char) : List Char :=
  match splitOnceL ['.'] name.reverse with
  | none => name
  | some (_, revStem) => if revStem = [] then name else revStem.reverse

/-- Rust `Path::file_stem` on a path string. -/
def pathFileStem (p : String) : Option String :=
  let name := pathFileName p
  if name = [] then none else some (String.mk (fileStemOf name))

/-! The `<picture>` descriptor types (src/lib.rs:31-41). -/

structure PictureSource where
  path : String
  media_type : String
deriving DecidableEq, Repr

structure PictureImages where
  sources : List PictureSource
  fallback_path : String
  height : Nat
  width : Nat
deriving DecidableEq, Repr

/-- `Context::add_image` (src/lib.rs:50): decode the image, take the
file stem as logical name, always register a JPEG fallback, and when
`optimize` is set also register AVIF and WebP variants, in that order.
The model's paths are Lean `String`s and therefore always valid UTF-8,
so the `to_str().unwrap()` cannot fire here; the byte-level model of
that line is `image_file_name` below. -/
def add_image (env : RenderEnv) (ctx : Context) (path : String) :
    Except GenError (PictureImages × Context) :=
  match env.openDecode path with
  | none => .error .imageRead
  | some image =>
    match pathFileStem path with
    | none => .error .imageNoName
    | some name =>
      let (fallback_path, ctx) := add_static_file ctx name ".jpg" image.jpegBytes
      if ctx.opts.optimize then
        let (avif_path, ctx) := add_static_file ctx name ".avif" image.avifBytes
        let (webp_path, ctx) := add_static_file ctx name ".webp" image.webpBytes
        .ok ({ sources := [⟨avif_path, "image/avif"⟩, ⟨webp_path, "image/webp"⟩],
               fallback_path := fallback_path,
               height := image.height, width := image.width }, ctx)
      else
        .ok ({ sources := [], fallback_path := fallback_path,
               height := image.height, width := image.width }, ctx)

/-! ## Markdown event rewriter (src/lib.rs:248-305) -/

/-- The raw HTML of one `<source>` element (src/lib.rs:280). -/
def sourceHtml (s : PictureSource) : String :=
  "<source srcset=\"" ++ s.path ++ "\" type=\"" ++ s.media_type ++ "\">"

/-- The raw HTML of the fallback `<img>` element (src/lib.rs:289). -/
def imgHtml (p : PictureImages) (alt : String) : String :=
  "<img src=\"" ++ p.fallback_path ++ "\" alt=\"" ++ alt ++ "\" height=\"" ++
    toString p.height ++ "\" width=\"" ++ toString p.width ++ "\">"

/-- The event sequence the rewriter emits in place of one image
reference (src/lib.rs:273-296). -/
def pictureEvents (p : PictureImages) (alt : String) : List MdEvent :=
  [.start .htmlBlock, .html "<picture>"] ++
    p.sources.map (fun s => .html (sourceHtml s)) ++
    [.html (imgHtml p alt), .html "</picture>", .endTag .htmlBlock]

/-- The event loop of `render_body` (src/lib.rs:255-300): every event
passes through unchanged except an image start, which must be followed
by exactly a text event (the alt text) and an image end event and is
replaced by `pictureEvents`. -/
def render_events (env : RenderEnv) (relative_to : String) :
    Context → List MdEvent → Except GenError (List MdEvent × Context)
  | ctx, [] => .ok ([], ctx)
  | ctx, .start (.image dest) :: .text alt :: .endTag .image :: rest => do
    let (pics, ctx') ← add_image env ctx (pathJoin relative_to dest)
    let (evs, ctx'') ← render_events env relative_to ctx' rest
    .ok (pictureEvents pics alt ++ evs, ctx'')
  | _, .start (.image _) :: .text _ :: _ => .error .noEndTag
  | _, .start (.image _) :: _ => .error .noAltText
  | ctx, ev :: rest =>
    (render_events env relative_to ctx rest).map (fun p => (ev :: p.1, p.2))

/-- `render_body` (src/lib.rs:248): parse, rewrite, serialize. -/
def render_body (env : RenderEnv) (ctx : Context) (relative_to : String)
    (md : String) : Except GenError (String × Context) :=
  (render_events env relative_to ctx (env.parseMd md)).map
    (fun p => (env.pushHtml p.1, p.2))

/-! ## Post loader (src/lib.rs:178-226) -/

structure Post where
  name : String
  relative_to : String
  frontmatter : Frontmatter
  body_md : String

/-- The frontmatter/body extraction of `collect_post`
(src/lib.rs:204-219): `strip_prefix("---\n")`, `split_once("---\n")`,
then deserialize the header. -/
def load_frontmatter (parseFm : String → Option Frontmatter) (content : String) :
    Except GenError (Frontmatter × String) :=
  match strDropFront "---\n" content with
  | none => .error .noOpeningDelim
  | some rest =>
    match strSplitOnce "---\n" rest with
    | none => .error .noClosingDelim
    | some (fmStr, body) =>
      match parseFm fmStr with
      | none => .error .invalidFrontmatter
      | some fm => .ok (fm, body)

/-- The naming rule of `collect_post` (src/lib.rs:181-194): a directory
entry keeps its name; a file entry is `split_once('.')` and the part
after the first dot must be exactly `md`. -/
def post_name_of (isDir : Bool) (filename : String) : Except GenError String :=
  if isDir then .ok filename
  else
    match splitOnceChar '.' filename.data with
    | none => .error .badFilename
    | some (name, ext) =>
      if ext = "md".data then .ok (String.mk name) else .error .badFilename

/-- One filesystem entry under `posts/`, with the text that
`read_to_string` produced for it (the entry itself for a file, its
`index.md` for a directory); read failures are I/O glue outside the
model. -/
structure PostEntry where
  isDir : Bool
  fileName : String
  content : String

/-- `collect_post` (src/lib.rs:178): derive the slug and the directory
the post's relative links resolve against, then split the content. -/
def collect_post (env : RenderEnv) (postsDir : String) (entry : PostEntry) :
    Except GenError Post := do
  let name ← post_name_of entry.isDir entry.fileName
  let relative_to :=
    if entry.isDir then postsDir ++ "/" ++ entry.fileName else postsDir
  let (fm, body) ← load_frontmatter env.parseFm entry.content
  .ok { name := name, relative_to := relative_to,
        frontmatter := fm, body_md := body }

/-- `collect_posts` (src/lib.rs:161), over already-enumerated entries. -/
def collect_posts (env : RenderEnv) (postsDir : String) :
    List PostEntry → Except GenError (List Post)
  | [] => .ok []
  | e :: rest => do
    let p ← collect_post env postsDir e
    let ps ← collect_posts env postsDir rest
    .ok (p :: ps)

/-- `render_post` (src/lib.rs:228): rewrite the body, then hand
`(title, body, theme_css_path)` to the external template. -/
def render_post (env : RenderEnv) (ctx : Context) (post : Post) :
    Except GenError (String × Context) :=
  (render_body env ctx post.relative_to post.body_md).map
    (fun p => (env.renderTemplate post.frontmatter.title p.1 p.2.theme_css_path, p.2))

/-- The per-post loop of `generate` (src/lib.rs:143-150), returning the
written pages as `(output-relative path, html)` pairs. -/
def generate_posts (env : RenderEnv) :
    Context → List Post → Except GenError (List (String × String) × Context)
  | ctx, [] => .ok ([], ctx)
  | ctx, post :: rest => do
    let (html, ctx') ← render_post env ctx post
    let (pages, ctx'') ← generate_posts env ctx' rest
    .ok (("blog/posts/" ++ post.name ++ "/index.html", html) :: pages, ctx'')

/-- `generate` (src/lib.rs:121): register the theme stylesheet, collect
the posts, render each, and flush the store.  All filesystem writes are
modelled as returned data: the list of HTML pages and the final
`static/` directory listing `(file name, bytes)`. -/
def generate (env : RenderEnv) (optimize : Bool) (entries : List PostEntry) :
    Except GenError (List (String × String) × List (String × List Nat)) := do
  let ctx : Context := ⟨⟨optimize⟩, [], ""⟩
  let (theme_css_path, ctx) := add_static_file ctx "theme" ".css" env.themeCss
  let ctx := { ctx with theme_css_path := theme_css_path }
  let posts ← collect_posts env "posts" entries
  let (pages, ctx) ← generate_posts env ctx posts
  .ok (pages, ctx.static_files)

/-! ## OS-string-level name extraction (src/lib.rs:56-60)

On Unix an `OsStr` is an arbitrary byte sequence; `to_str` succeeds
exactly on valid UTF-8.  `image_file_name` models
`path.file_stem().ok_or_eyre("image does not have name")?.to_str().unwrap()`
with the panic made explicit as an outcome. -/

/-- `b` is a UTF-8 continuation-range byte within `[lo, hi)`. -/
def inRange (lo hi b : Nat) : Bool := Nat.ble lo b && Nat.blt b hi

/-- UTF-8 decoding of a byte sequence, `none` when invalid (continuation
bytes, overlong forms, surrogates and out-of-range values all rejected,
per RFC 3629 — the check `str::from_utf8` performs). -/
def decodeUtf8 : List Nat → Option (List Char)
  | [] => some []
  | b :: rest =>
    if b < 0x80 then
      (decodeUtf8 rest).map (fun cs => Char.ofNat b :: cs)
    else if b < 0xC2 then none
    else if b < 0xE0 then
      match rest with
      | b1 :: rest1 =>
        if inRange 0x80 0xC0 b1 then
          (decodeUtf8 rest1).map (fun cs =>
            Char.ofNat ((b - 0xC0) * 64 + (b1 - 0x80)) :: cs)
        else none
      | [] => none
    else if b < 0xF0 then
      match rest with
      | b1 :: b2 :: rest2 =>
        let lo1 := if b = 0xE0 then 0xA0 else 0x80
        let hi1 := if b = 0xED then 0xA0 else 0xC0
        if inRange lo1 hi1 b1 && inRange 0x80 0xC0 b2 then
          (decodeUtf8 rest2).map (fun cs =>
            Char.ofNat (((b - 0xE0) * 64 + (b1 - 0x80)) * 64 + (b2 - 0x80)) :: cs)
        else none
      | _ => none
    else if b < 0xF5 then
      match rest with
      | b1 :: b2 :: b3 :: rest3 =>
        let lo1 := if b = 0xF0 then 0x90 else 0x80
        let hi1 := if b = 0xF4 then 0x90 else 0xC0
        if inRange lo1 hi1 b1 && inRange 0x80 0xC0 b2 && inRange 0x80 0xC0 b3 then
          (decodeUtf8 rest3).map (fun cs =>
            Char.ofNat ((((b - 0xF0) * 64 + (b1 - 0x80)) * 64 + (b2 - 0x80)) * 64
              + (b3 - 0x80)) :: cs)
        else none
      | _ => none
    else none

/-- `fileStemOf` at the byte level (0x2E is `'.'`). -/
def fileStemBytes (name : List Nat) : List Nat :=
  match splitOnceL [0x2E] name.reverse with
  | none => name
  | some (_, revStem) => if revStem = [] then name else revStem.reverse

inductive NameOutcome
  | errNoName       -- `file_stem()` was `None`: recoverable `ImageError`
  | panicked        -- `to_str()` was `None`: `.unwrap()` panics
  | named (s : String)
deriving DecidableEq

/-- The name extraction of `Context::add_image` (src/lib.rs:56-60),
taking the path's final component as raw bytes (`none` when the path
has no final normal component, hence no file stem). -/
def image_file_name (fileName : Option (List Nat)) : NameOutcome :=
  match fileName with
  | none => .errNoName
  | some bytes =>
    match decodeUtf8 (fileStemBytes bytes) with
    | none => .panicked
    | some cs => .named (String.mk cs)

/-! ## Store lemmas -/

theorem insertKV_idem (k : String) (v : List Nat) (m : List (String × List Nat)) :
    insertKV k v (insertKV k v m) = insertKV k v m := by
  induction m with
  | nil => simp [insertKV]
  | cons p rest ih =>
    obtain ⟨k', v'⟩ := p
    by_cases h : k = k'
    · simp [insertKV, h]
    · simp [insertKV, h, ih]

theorem length_insertKV_le (k : String) (v : List Nat)
    (m : List (String × List Nat)) :
    (insertKV k v m).length ≤ m.length + 1 := by
  induction m with
  | nil => simp [insertKV]
  | cons p rest ih =>
    obtain ⟨k', v'⟩ := p
    by_cases h : k = k'
    · simp [insertKV, h]
    · simpa [insertKV, h] using ih

theorem lookupKV_insertKV_self (k : String) (v : List Nat)
    (m : List (String × List Nat)) :
    lookupKV k (insertKV k v m) = some v := by
  induction m with
  | nil => simp [insertKV, lookupKV]
  | cons p rest ih =>
    obtain ⟨k', v'⟩ := p
    by_cases h : k = k'
    · simp [insertKV, lookupKV, h]
    · simp [insertKV, lookupKV, h, ih]

theorem mem_keys_insertKV {x k : String} {v : List Nat}
    {m : List (String × List Nat)}
    (hx : x ∈ (insertKV k v m).map Prod.fst) :
    x = k ∨ x ∈ m.map Prod.fst := by
  induction m with
  | nil =>
    rw [insertKV, List.map_cons, List.map_nil] at hx
    exact .inl (by simpa using hx)
  | cons p rest ih =>
    obtain ⟨k', v'⟩ := p
    by_cases h : k = k'
    · rw [insertKV, if_pos h, List.map_cons] at hx
      rw [List.map_cons, List.mem_cons]
      rcases List.mem_cons.mp hx with h1 | h2
      · exact .inl h1
      · exact .inr (.inr h2)
    · rw [insertKV, if_neg h, List.map_cons] at hx
      rw [List.map_cons, List.mem_cons]
      rcases List.mem_cons.mp hx with h1 | h2
      · exact .inr (.inl h1)
      · rcases ih h2 with h3 | h4
        · exact .inl h3
        · exact .inr (.inr h4)

theorem keys_nodup_insertKV (k : String) (v : List Nat)
    {m : List (String × List Nat)} (hm : (m.map Prod.fst).Nodup) :
    ((insertKV k v m).map Prod.fst).Nodup := by
  induction m with
  | nil => simp [insertKV]
  | cons p rest ih =>
    obtain ⟨k', v'⟩ := p
    rw [List.map_cons, List.nodup_cons] at hm
    by_cases h : k = k'
    · rw [insertKV, if_pos h, List.map_cons, List.nodup_cons]
      exact ⟨h ▸ hm.1, hm.2⟩
    · rw [insertKV, if_neg h, List.map_cons, List.nodup_cons]
      refine ⟨?_, ih hm.2⟩
      intro hmem
      rcases mem_keys_insertKV hmem with h1 | h2
      · exact h h1.symm
      · exact hm.1 h2

theorem natToBase58Go_subset (fuel : Nat) : ∀ n, ∀ c ∈ natToBase58Go fuel n,
    c ∈ base58Alphabet := by
  induction fuel with
  | zero => intro n c hc; simp [natToBase58Go] at hc
  | succ fuel ih =>
    intro n c hc
    by_cases h : n = 0
    · simp [natToBase58Go, h] at hc
    · simp only [natToBase58Go, if_neg h] at hc
      rcases List.mem_append.mp hc with h1 | h2
      · exact ih _ c h1
      · have hc' : c = base58Alphabet.getD (n % 58) '?' := by simpa using h2
        subst hc'
        have hlt : n % 58 < base58Alphabet.length := by
          have : n % 58 < 58 := Nat.mod_lt _ (by norm_num)
          simpa [base58Alphabet] using this
        rw [List.getD_eq_getElem _ _ hlt]
        exact List.getElem_mem hlt

theorem natToBase58_subset (n : Nat) : ∀ c ∈ natToBase58 n, c ∈ base58Alphabet :=
  natToBase58Go_subset n n

/-! ## The asset-store claims -/

/-- C1.  Idempotent registration: registering the identical bytes twice
under the same logical name and extension yields the same identifier
both times, the second registration leaves the store exactly as it was,
and across the two calls the asset count grows by at most one. -/
theorem add_static_file_idempotent (ctx : Context) (name ext : String)
    (content : List Nat) :
    (add_static_file ctx name ext content).1 =
      (add_static_file (add_static_file ctx name ext content).2
        name ext content).1 ∧
    (add_static_file (add_static_file ctx name ext content).2
        name ext content).2 =
      (add_static_file ctx name ext content).2 ∧
    (add_static_file ctx name ext content).2.static_files.length ≤
      ctx.static_files.length + 1 ∧
    (add_static_file (add_static_file ctx name ext content).2
        name ext content).2.static_files.length ≤
      ctx.static_files.length + 1 := by
  refine ⟨rfl, ?_, ?_, ?_⟩
  · simp [add_static_file, insertKV_idem]
  · exact length_insertKV_le _ _ _
  · simpa [add_static_file, insertKV_idem] using length_insertKV_le
      (name ++ "-" ++ create_hash_string content ++ ext) content ctx.static_files

/-- C3.  Identifier construction: one registration inserts exactly the
key `"{name}-{encoded_hash}{ext}"` where the encoded hash is the
(padding-free) base58 rendering of the first 16 bytes — 128 bits — of
the SHA-256 digest of the content, returns that identifier behind
`"/static/"`, every character of the encoded hash is drawn from the
base58 alphabet, and the identifier is a function of
`(name, ext, content)` alone (the same arguments give the same
identifier whatever the prior store contents). -/
theorem add_static_file_identifier (ctx ctx' : Context) (name ext : String)
    (content : List Nat) :
    (add_static_file ctx name ext content).1 =
      "/static/" ++ (name ++ "-" ++ bs58Encode ((sha256 content).take 16) ++ ext) ∧
    (add_static_file ctx name ext content).2.static_files =
      insertKV (name ++ "-" ++ bs58Encode ((sha256 content).take 16) ++ ext)
        content ctx.static_files ∧
    (create_hash_string content).data ⊆ base58Alphabet ∧
    (add_static_file ctx name ext content).1 =
      (add_static_file ctx' name ext content).1 := by
  refine ⟨rfl, rfl, ?_, rfl⟩
  intro c hc
  simp only [create_hash_string, bs58Encode, String.data] at hc
  rcases List.mem_append.mp hc with h1 | h2
  · have : c = '1' := List.eq_of_mem_replicate h1
    subst this
    decide
  · exact natToBase58_subset _ _ h2

theorem add_static_file_identifier_witness :
    (add_static_file ⟨⟨false⟩, [], ""⟩ "cat" ".jpg" [7]).1 =
      "/static/" ++ ("cat" ++ "-" ++ bs58Encode ((sha256 [7]).take 16) ++ ".jpg") ∧
    (add_static_file ⟨⟨false⟩, [], ""⟩ "cat" ".jpg" [7]).2.static_files =
      insertKV ("cat" ++ "-" ++ bs58Encode ((sha256 [7]).take 16) ++ ".jpg")
        [7] [] ∧
    (create_hash_string [7]).data ⊆ base58Alphabet ∧
    (add_static_file ⟨⟨false⟩, [], ""⟩ "cat" ".jpg" [7]).1 =
      (add_static_file ⟨⟨true⟩, [("x", [9])], "t"⟩ "cat" ".jpg" [7]).1 :=
  add_static_file_identifier ⟨⟨false⟩, [], ""⟩ ⟨⟨true⟩, [("x", [9])], "t"⟩
    "cat" ".jpg" [7]

/-- C2 counterexample.  `add_static_file` does expose a way to map
different bytes to an identifier already present in the store: with a
crafted logical-name/extension pair the identifiers of two
registrations of different bytes coincide, the function is total (no
failure of any kind), and the second call silently replaces the first
call's bytes — contradicting the claimed programming-error-level
failure on such a registration. -/
theorem add_static_file_overwrite_cx :
    (add_static_file ⟨⟨false⟩, [], ""⟩ "a"
        (".x-" ++ create_hash_string [2] ++ ".jpg") [1]).1 =
      (add_static_file
        (add_static_file ⟨⟨false⟩, [], ""⟩ "a"
          (".x-" ++ create_hash_string [2] ++ ".jpg") [1]).2
        ("a-" ++ create_hash_string [1] ++ ".x") ".jpg" [2]).1 ∧
    lookupKV ("a" ++ "-" ++ create_hash_string [1] ++
        (".x-" ++ create_hash_string [2] ++ ".jpg"))
      (add_static_file ⟨⟨false⟩, [], ""⟩ "a"
        (".x-" ++ create_hash_string [2] ++ ".jpg") [1]).2.static_files =
      some [1] ∧
    lookupKV ("a" ++ "-" ++ create_hash_string [1] ++
        (".x-" ++ create_hash_string [2] ++ ".jpg"))
      (add_static_file
        (add_static_file ⟨⟨false⟩, [], ""⟩ "a"
          (".x-" ++ create_hash_string [2] ++ ".jpg") [1]).2
        ("a-" ++ create_hash_string [1] ++ ".x") ".jpg" [2]).2.static_files =
      some [2] ∧
    ([1] : List Nat) ≠ [2] := by
  have key : ∀ g1 g2 : String,
      ("a-" ++ g1 ++ ".x") ++ "-" ++ g2 ++ ".jpg" =
        "a" ++ "-" ++ g1 ++ (".x-" ++ g2 ++ ".jpg") := by
    intro g1 g2
    apply String.ext
    simp only [String.data_append, List.append_assoc]
    rfl
  simp only [add_static_file]
  generalize create_hash_string [1] = g1
  generalize create_hash_string [2] = g2
  refine ⟨?_, ?_, ?_, by decide⟩
  · rw [key]
  · simp [insertKV, lookupKV]
  · rw [key]
    simp [insertKV, lookupKV]

/-- C2 amended.  The store's registration is total and uses
last-writer-wins replacement: after a registration the identifier maps
to the just-registered bytes (any previous binding for the same
identifier is silently discarded, never reported), and the store still
never holds two entries with the same identifier. -/
theorem add_static_file_last_writer_wins (ctx : Context) (name ext : String)
    (content : List Nat) (hnodup : (ctx.static_files.map Prod.fst).Nodup) :
    lookupKV (name ++ "-" ++ create_hash_string content ++ ext)
      (add_static_file ctx name ext content).2.static_files = some content ∧
    (((add_static_file ctx name ext content).2.static_files).map
      Prod.fst).Nodup := by
  exact ⟨lookupKV_insertKV_self _ _ _, keys_nodup_insertKV _ _ hnodup⟩

theorem add_static_file_last_writer_wins_witness :
    lookupKV ("cat" ++ "-" ++ create_hash_string [7] ++ ".jpg")
      (add_static_file ⟨⟨false⟩, [], ""⟩ "cat" ".jpg" [7]).2.static_files =
      some [7] ∧
    (((add_static_file ⟨⟨false⟩, [], ""⟩ "cat" ".jpg"
      [7]).2.static_files).map Prod.fst).Nodup :=
  add_static_file_last_writer_wins ⟨⟨false⟩, [], ""⟩ "cat" ".jpg" [7] (by decide)

instance {ε α : Type} [DecidableEq ε] [DecidableEq α] :
    DecidableEq (Except ε α) := fun a b =>
  match a, b with
  | .error e, .error f => decidable_of_iff (e = f) (by simp)
  | .ok x, .ok y => decidable_of_iff (x = y) (by simp)
  | .error _, .ok _ => isFalse (by simp)
  | .ok _, .error _ => isFalse (by simp)

/-! ## Characterizations of `split_once` -/

theorem splitOnceL_singleton_some_iff [DecidableEq α] (c : α) :
    ∀ l a b : List α, splitOnceL [c] l = some (a, b) ↔
      l = a ++ c :: b ∧ c ∉ a := by
  intro l
  induction l with
  | nil =>
    intro a b
    simp [splitOnceL, List.isPrefixOf]
  | cons x rest ih =>
    intro a b
    rw [splitOnceL]
    by_cases hx : c = x
    · subst hx
      rw [if_pos (by simp [List.isPrefixOf])]
      constructor
      · intro h
        simp only [Option.some.injEq, Prod.mk.injEq] at h
        obtain ⟨rfl, rfl⟩ := h
        exact ⟨rfl, by simp⟩
      · rintro ⟨heq, hnotin⟩
        cases a with
        | nil =>
          simp only [List.nil_append, List.cons.injEq] at heq
          simp [heq.2]
        | cons y a' =>
          simp only [List.cons_append, List.cons.injEq] at heq
          exact absurd (List.mem_cons_self c a') (heq.1 ▸ hnotin)
    · rw [if_neg (by simp [List.isPrefixOf, hx, Ne.symm hx])]
      constructor
      · intro h
        rcases Option.map_eq_some'.mp h with ⟨⟨a', b'⟩, hsplit, heq⟩
        simp only [Prod.mk.injEq] at heq
        obtain ⟨rfl, rfl⟩ := heq
        obtain ⟨hrest, hnotin⟩ := (ih a' b').mp hsplit
        refine ⟨by rw [hrest]; rfl, ?_⟩
        intro hc
        rcases List.mem_cons.mp hc with h1 | h2
        · exact hx h1
        · exact hnotin h2
      · rintro ⟨heq, hnotin⟩
        cases a with
        | nil =>
          simp only [List.nil_append, List.cons.injEq] at heq
          exact absurd heq.1 (fun hxx => hx hxx.symm)
        | cons y a' =>
          simp only [List.cons_append, List.cons.injEq] at heq
          obtain ⟨rfl, hrest⟩ := heq
          have hnotin' : c ∉ a' := fun hc => hnotin (List.mem_cons_of_mem _ hc)
          exact Option.map_eq_some'.mpr
            ⟨(a', b), (ih a' b).mpr ⟨hrest, hnotin'⟩, rfl⟩

theorem splitOnceL_singleton_none_iff [DecidableEq α] (c : α) :
    ∀ l : List α, splitOnceL [c] l = none ↔ c ∉ l := by
  intro l
  induction l with
  | nil => simp [splitOnceL, List.isPrefixOf]
  | cons x rest ih =>
    rw [splitOnceL]
    by_cases hx : c = x
    · subst hx
      rw [if_pos (by simp [List.isPrefixOf])]
      simp
    · rw [if_neg (by simp [List.isPrefixOf, hx, Ne.symm hx])]
      rw [Option.map_eq_none', ih]
      simp [hx]

/-- `splitOnceL` returns `some (a, b)` exactly when `l = a ++ pat ++ b`
and no occurrence of `pat` starts before position `a.length`: it is the
split at the *first* occurrence. -/
theorem splitOnceL_some_iff [DecidableEq α] (pat : List α) :
    ∀ l a b : List α, splitOnceL pat l = some (a, b) ↔
      l = a ++ pat ++ b ∧ ∀ i < a.length, ¬ OccursAt pat l i := by
  intro l
  induction l with
  | nil =>
    intro a b
    rw [splitOnceL]
    by_cases hp : pat = []
    · subst hp
      rw [if_pos (by simp [List.isPrefixOf])]
      constructor
      · intro h
        simp only [Option.some.injEq, Prod.mk.injEq] at h
        obtain ⟨rfl, rfl⟩ := h
        simp
      · rintro ⟨heq, _⟩
        rcases List.append_eq_nil.mp
          (List.append_eq_nil.mp heq.symm).1 with ⟨rfl, -⟩
        rcases List.append_eq_nil.mp heq.symm with ⟨-, rfl⟩
        rfl
    · rw [if_neg (by simp [List.isPrefixOf_iff_prefix, hp])]
      constructor
      · intro h; exact absurd h (by simp)
      · rintro ⟨heq, -⟩
        obtain ⟨-, hpb⟩ := List.append_eq_nil.mp heq.symm
        obtain ⟨-, hpe⟩ := List.append_eq_nil.mp
          (List.append_eq_nil.mp heq.symm).1
        exact absurd hpe hp
  | cons x rest ih =>
    intro a b
    rw [splitOnceL]
    by_cases hp : pat.isPrefixOf (x :: rest) = true
    · rw [if_pos hp]
      have hpref : pat <+: x :: rest := List.isPrefixOf_iff_prefix.mp hp
      constructor
      · intro h
        simp only [Option.some.injEq, Prod.mk.injEq] at h
        obtain ⟨rfl, rfl⟩ := h
        obtain ⟨t, ht⟩ := hpref
        refine ⟨?_, by simp⟩
        conv_lhs => rw [← ht]
        rw [← ht, List.nil_append, List.drop_left]
      · rintro ⟨heq, hcond⟩
        cases a with
        | nil =>
          simp only [List.nil_append] at heq
          rw [heq, List.drop_left]
        | cons y a' =>
          exfalso
          exact hcond 0 (by simp) (by simpa [OccursAt] using hp)
    · rw [if_neg hp]
      constructor
      · intro h
        rcases Option.map_eq_some'.mp h with ⟨⟨a', b'⟩, hsplit, heq⟩
        simp only [Prod.mk.injEq] at heq
        obtain ⟨rfl, rfl⟩ := heq
        obtain ⟨hrest, hcond⟩ := (ih a' b').mp hsplit
        refine ⟨by rw [hrest]; rfl, ?_⟩
        intro i hi
        cases i with
        | zero => simpa [OccursAt] using hp
        | succ j =>
          intro hocc
          exact hcond j (by simpa using hi)
            (by simpa [OccursAt, List.drop_succ_cons] using hocc)
      · rintro ⟨heq, hcond⟩
        cases a with
        | nil =>
          exfalso
          simp only [List.nil_append] at heq
          exact hp (List.isPrefixOf_iff_prefix.mpr ⟨b, heq.symm⟩)
        | cons y a' =>
          simp only [List.cons_append, List.cons.injEq] at heq
          obtain ⟨rfl, hrest⟩ := heq
          refine Option.map_eq_some'.mpr ⟨(a', b), (ih a' b).mpr ⟨hrest, ?_⟩, rfl⟩
          intro i hi hocc
          exact hcond (i + 1) (by simpa using hi)
            (by simpa [OccursAt, List.drop_succ_cons] using hocc)

/-- `splitOnceL` returns `none` exactly when `pat` occurs nowhere. -/
theorem splitOnceL_none_iff [DecidableEq α] (pat : List α) :
    ∀ l : List α, splitOnceL pat l = none ↔ ∀ i, ¬ OccursAt pat l i := by
  intro l
  induction l with
  | nil =>
    rw [splitOnceL]
    by_cases hp : pat = []
    · subst hp
      rw [if_pos (by simp [List.isPrefixOf])]
      constructor
      · intro h; exact absurd h (by simp)
      · intro h; exact absurd (h 0) (by simp [OccursAt, List.isPrefixOf])
    · rw [if_neg (by simp [List.isPrefixOf_iff_prefix, hp])]
      refine ⟨fun _ i => ?_, fun _ => rfl⟩
      simp only [OccursAt, List.drop_nil]
      simp [List.isPrefixOf_iff_prefix, hp]
  | cons x rest ih =>
    rw [splitOnceL]
    by_cases hp : pat.isPrefixOf (x :: rest) = true
    · rw [if_pos hp]
      constructor
      · intro h; exact absurd h (by simp)
      · intro h; exact absurd hp (by simpa [OccursAt] using h 0)
    · rw [if_neg hp]
      rw [Option.map_eq_none', ih]
      constructor
      · intro h i
        cases i with
        | zero => simpa [OccursAt] using hp
        | succ j => simpa [OccursAt, List.drop_succ_cons] using h j
      · intro h j
        simpa [OccursAt, List.drop_succ_cons] using h (j + 1)

/-! ## The post-naming claim -/

/-- C8 counterexample.  The filename `a.b.md` is of the `name.md` shape
(its name part `a.b` carries the `.md` extension, and the standard-library
extension-stripping rule also yields `a.b`), yet `collect_post` rejects
it: `split_once('.')` cuts at the *first* dot, leaving `b.md` as the
alleged extension. -/
theorem post_name_of_cx :
    post_name_of false "a.b.md" = .error .badFilename ∧
    "a.b.md".data = "a.b".data ++ '.' :: "md".data ∧
    String.mk (fileStemOf "a.b.md".data) = "a.b" := by
  refine ⟨by decide, by decide, by decide⟩

/-- C8 amended.  A directory entry's slug is the directory name itself,
case and characters preserved.  A single-file entry is accepted exactly
when everything after the *first* dot of its filename is the literal
`md`; the slug is then the part before that first dot (so the slug can
never itself contain a dot, and a multi-dot name such as `a.b.md` is
rejected).  Every other filename shape is a fatal error for that
entry. -/
theorem post_name_of_spec (filename : String) :
    post_name_of true filename = .ok filename ∧
    (∀ name : String, post_name_of false filename = .ok name ↔
      ('.' ∉ name.data ∧ filename.data = name.data ++ '.' :: "md".data)) ∧
    (post_name_of false filename = .error .badFilename ∨
      ∃ name : String, post_name_of false filename = .ok name) := by
  have hunfold : post_name_of false filename =
      match splitOnceChar '.' filename.data with
      | none => .error .badFilename
      | some (name, ext) =>
        if ext = "md".data then .ok (String.mk name)
        else .error .badFilename := by
    rw [post_name_of]
    simp
  refine ⟨by simp [post_name_of], ?_, ?_⟩
  · intro name
    constructor
    · intro h
      rw [hunfold] at h
      cases hsplit : splitOnceChar '.' filename.data with
      | none => rw [hsplit] at h; exact absurd h (by simp)
      | some p =>
        obtain ⟨a, e⟩ := p
        rw [hsplit] at h
        by_cases he : e = "md".data
        · rw [he] at h
          simp at h
          subst h
          obtain ⟨heq, hnotin⟩ :=
            (splitOnceL_singleton_some_iff '.' filename.data a e).mp hsplit
          exact ⟨hnotin, by rw [heq, he]⟩
        · simp only [if_neg he] at h
          exact absurd h (by simp)
    · rintro ⟨hnotin, heq⟩
      have hsplit : splitOnceChar '.' filename.data =
          some (name.data, "md".data) :=
        (splitOnceL_singleton_some_iff '.' filename.data name.data
          "md".data).mpr ⟨heq, hnotin⟩
      rw [hunfold, hsplit]
      simp
  · rw [hunfold]
    cases hsplit : splitOnceChar '.' filename.data with
    | none => exact .inl rfl
    | some p =>
      obtain ⟨a, e⟩ := p
      by_cases he : e = "md".data
      · exact .inr ⟨String.mk a, by simp [he]⟩
      · exact .inl (by simp [he])

theorem post_name_of_spec_witness :
    post_name_of true "hello" = .ok "hello" ∧
    post_name_of false "x.md" = .ok "x" :=
  ⟨(post_name_of_spec "hello").1,
   ((post_name_of_spec "x.md").2.1 "x").mpr (by decide)⟩

/-! ## The post-loader claim -/

/-- C4.  Post loader contract: `load_frontmatter` succeeds with
`(fm, body)` exactly when the text is `"---\n" ++ header ++ "---\n" ++ body`
split at the *first* occurrence of the closing delimiter (no earlier
occurrence of `"---\n"` in the delimited region) and the header
deserializes to `fm`; every failure is a `FrontmatterError`; a text not
beginning with the opening delimiter fails, a text with no closing
delimiter after the opening one fails, and a header the deserializer
rejects (missing or wrong-typed field — no defaults are substituted)
fails. -/
theorem load_frontmatter_spec (parseFm : String → Option Frontmatter)
    (content : String) :
    (∀ fm body, load_frontmatter parseFm content = .ok (fm, body) ↔
      ∃ header : List Char,
        content.data = "---\n".data ++ (header ++ "---\n".data ++ body.data) ∧
        (∀ i < header.length,
          ¬ OccursAt "---\n".data (header ++ "---\n".data ++ body.data) i) ∧
        parseFm (String.mk header) = some fm) ∧
    (∀ e, load_frontmatter parseFm content = .error e →
      e.isFrontmatterError = true) ∧
    ("---\n".data.isPrefixOf content.data = false →
      load_frontmatter parseFm content = .error .noOpeningDelim) ∧
    (∀ rest : List Char, content.data = "---\n".data ++ rest →
      (∀ i, ¬ OccursAt "---\n".data rest i) →
      load_frontmatter parseFm content = .error .noClosingDelim) ∧
    (∀ rest fmL bodyL : List Char, content.data = "---\n".data ++ rest →
      splitOnceL "---\n".data rest = some (fmL, bodyL) →
      parseFm (String.mk fmL) = none →
      load_frontmatter parseFm content = .error .invalidFrontmatter) := by
  by_cases hpre : "---\n".data.isPrefixOf content.data = true
  · obtain ⟨t, ht⟩ := List.isPrefixOf_iff_prefix.mp hpre
    have h4 : ("---\n".data).length = 4 := rfl
    have hdropt : List.drop 4 content.data = t := by
      rw [← ht, ← h4, List.drop_left]
    have hdrop : strDropFront "---\n" content = some (String.mk t) := by
      simp [strDropFront, dropFront, hpre, hdropt]
    have hun : ∀ z, load_frontmatter parseFm content = z ↔
        (match strSplitOnce "---\n" (String.mk t) with
          | none => Except.error GenError.noClosingDelim
          | some (fmStr, body) =>
            match parseFm fmStr with
            | none => Except.error GenError.invalidFrontmatter
            | some fm => Except.ok (fm, body)) = z := by
      intro z
      rw [load_frontmatter, hdrop]
    have hcancel : ∀ r : List Char, content.data = "---\n".data ++ r → r = t := by
      intro r hr
      exact (List.append_cancel_left (ht.trans hr)).symm
    cases hsp : splitOnceL "---\n".data t with
    | none =>
      have hnone : strSplitOnce "---\n" (String.mk t) = none := by
        simp [strSplitOnce, hsp]
      have heval : load_frontmatter parseFm content = .error .noClosingDelim := by
        refine (hun _).mpr ?_
        rw [hnone]
      refine ⟨?_, ?_, ?_, fun _ _ _ => heval, ?_⟩
      · intro fm body
        rw [heval]
        constructor
        · intro h; exact absurd h (by simp)
        · rintro ⟨header, heq, hcond, -⟩
          have hrt : header ++ "---\n".data ++ body.data = t :=
            hcancel _ (by simpa [List.append_assoc] using heq)
          have : splitOnceL "---\n".data t = some (header, body.data) :=
            (splitOnceL_some_iff _ t header body.data).mpr
              ⟨hrt.symm, by rw [← hrt]; exact hcond⟩
          rw [hsp] at this
          exact absurd this (by simp)
      · intro e he
        rw [heval] at he
        injection he with he
        subst he
        decide
      · intro hfalse
        rw [hpre] at hfalse
        exact absurd hfalse (by simp)
      · intro r fmL bodyL hr hspr _
        rw [hcancel r hr, hsp] at hspr
        exact absurd hspr (by simp)
    | some p =>
      obtain ⟨fmL, bodyL⟩ := p
      have hsome : strSplitOnce "---\n" (String.mk t) =
          some (String.mk fmL, String.mk bodyL) := by
        simp [strSplitOnce, hsp]
      obtain ⟨hteq, htcond⟩ := (splitOnceL_some_iff _ t fmL bodyL).mp hsp
      have hinner : ∀ z, load_frontmatter parseFm content = z ↔
          (match parseFm (String.mk fmL) with
            | none => Except.error GenError.invalidFrontmatter
            | some fm => Except.ok (fm, String.mk bodyL)) = z := by
        intro z
        rw [hun, hsome]
      cases hparse : parseFm (String.mk fmL) with
      | none =>
        have heval : load_frontmatter parseFm content =
            .error .invalidFrontmatter := by
          refine (hinner _).mpr ?_
          rw [hparse]
        refine ⟨?_, ?_, ?_, ?_, ?_⟩
        · intro fm body
          rw [heval]
          constructor
          · intro h; exact absurd h (by simp)
          · rintro ⟨header, heq, hcond, hp2⟩
            have hrt : header ++ "---\n".data ++ body.data = t :=
              hcancel _ (by simpa [List.append_assoc] using heq)
            have hs2 : splitOnceL "---\n".data t = some (header, body.data) :=
              (splitOnceL_some_iff _ t header body.data).mpr
                ⟨hrt.symm, by rw [← hrt]; exact hcond⟩
            rw [hsp] at hs2
            simp only [Option.some.injEq, Prod.mk.injEq] at hs2
            rw [hs2.1] at hparse
            rw [hp2] at hparse
            exact absurd hparse (by simp)
        · intro e he
          rw [heval] at he
          injection he with he
          subst he
          decide
        · intro hfalse
          rw [hpre] at hfalse
          exact absurd hfalse (by simp)
        · intro r hr hnone
          exfalso
          rw [hcancel r hr] at hnone
          have := (splitOnceL_none_iff "---\n".data t).mpr hnone
          rw [hsp] at this
          exact absurd this (by simp)
        · intro r fmL' bodyL' hr hspr _
          exact heval
      | some fm' =>
        have heval : load_frontmatter parseFm content =
            .ok (fm', String.mk bodyL) := by
          refine (hinner _).mpr ?_
          rw [hparse]
        refine ⟨?_, ?_, ?_, ?_, ?_⟩
        · intro fm body
          rw [heval]
          constructor
          · intro h
            simp only [Except.ok.injEq, Prod.mk.injEq] at h
            obtain ⟨rfl, rfl⟩ := h
            refine ⟨fmL, ?_, ?_, hparse⟩
            · rw [← ht, hteq]
            · rw [hteq] at htcond
              exact htcond
          · rintro ⟨header, heq, hcond, hp2⟩
            have hrt : header ++ "---\n".data ++ body.data = t :=
              hcancel _ (by simpa [List.append_assoc] using heq)
            have hs2 : splitOnceL "---\n".data t = some (header, body.data) :=
              (splitOnceL_some_iff _ t header body.data).mpr
                ⟨hrt.symm, by rw [← hrt]; exact hcond⟩
            rw [hsp] at hs2
            simp only [Option.some.injEq, Prod.mk.injEq] at hs2
            obtain ⟨hh, hb⟩ := hs2
            rw [← hh] at hp2
            rw [hparse] at hp2
            injection hp2 with hp2
            rw [hp2, @String.ext (String.mk bodyL) body hb]
        · intro e he
          rw [heval] at he
          exact absurd he (by simp)
        · intro hfalse
          rw [hpre] at hfalse
          exact absurd hfalse (by simp)
        · intro r hr hnone
          exfalso
          rw [hcancel r hr] at hnone
          have := (splitOnceL_none_iff "---\n".data t).mpr hnone
          rw [hsp] at this
          exact absurd this (by simp)
        · intro r fmL' bodyL' hr hspr hparse'
          rw [hcancel r hr, hsp] at hspr
          simp only [Option.some.injEq, Prod.mk.injEq] at hspr
          rw [← hspr.1] at hparse'
          rw [hparse'] at hparse
          exact absurd hparse (by simp)
  · have hpre' : "---\n".data.isPrefixOf content.data = false :=
      Bool.eq_false_iff.mpr hpre
    have hnone : strDropFront "---\n" content = none := by
      simp [strDropFront, dropFront, hpre']
    have herr : load_frontmatter parseFm content = .error .noOpeningDelim := by
      rw [load_frontmatter, hnone]
    refine ⟨?_, ?_, fun _ => herr, ?_, ?_⟩
    · intro fm body
      rw [herr]
      constructor
      · intro h; exact absurd h (by simp)
      · rintro ⟨header, heq, -, -⟩
        have : "---\n".data.isPrefixOf content.data = true :=
          List.isPrefixOf_iff_prefix.mpr ⟨_, heq.symm⟩
        rw [hpre'] at this
        exact absurd this (by simp)
    · intro e he
      rw [herr] at he
      injection he with he
      subst he
      decide
    · intro r hr _
      exfalso
      have : "---\n".data.isPrefixOf content.data = true :=
        List.isPrefixOf_iff_prefix.mpr ⟨r, hr.symm⟩
      rw [hpre'] at this
      exact absurd this (by simp)
    · intro r fmL bodyL hr _ _
      exfalso
      have : "---\n".data.isPrefixOf content.data = true :=
        List.isPrefixOf_iff_prefix.mpr ⟨r, hr.symm⟩
      rw [hpre'] at this
      exact absurd this (by simp)

/-- The claim's concrete example: `---\ntitle: X\ndate: Y\n---\nBODY`
yields `Frontmatter{title: X, date: Y}` and body exactly `BODY`, and the
failure cases fire on concrete malformed inputs. -/
theorem load_frontmatter_spec_witness :
    load_frontmatter
      (fun s => if s = "title: X\ndate: Y\n" then some ⟨"X", "Y"⟩ else none)
      "---\ntitle: X\ndate: Y\n---\nBODY" = .ok (⟨"X", "Y"⟩, "BODY") ∧
    load_frontmatter
      (fun s => if s = "title: X\ndate: Y\n" then some ⟨"X", "Y"⟩ else none)
      "no delimiter here" = .error .noOpeningDelim ∧
    load_frontmatter
      (fun s => if s = "title: X\ndate: Y\n" then some ⟨"X", "Y"⟩ else none)
      "---\ntitle: X\ndate: Y\n" = .error .noClosingDelim ∧
    load_frontmatter
      (fun s => if s = "title: X\ndate: Y\n" then some ⟨"X", "Y"⟩ else none)
      "---\noops\n---\nBODY" = .error .invalidFrontmatter := by
  refine ⟨?_, ?_, ?_, ?_⟩
  · exact ((load_frontmatter_spec _ _).1 ⟨"X", "Y"⟩ "BODY").mpr
      ⟨"title: X\ndate: Y\n".data, by decide, by decide, by decide⟩
  · exact (load_frontmatter_spec _ _).2.2.1 (by decide)
  · exact (load_frontmatter_spec _ _).2.2.2.1 "title: X\ndate: Y\n".data
      (by decide)
      ((splitOnceL_none_iff "---\n".data "title: X\ndate: Y\n".data).mp
        (by decide))
  · exact (load_frontmatter_spec _ _).2.2.2.2 "oops\n---\nBODY".data
      "oops\n".data "BODY".data (by decide) (by decide) (by decide)

/-! ## The markdown-rewriter claims -/

theorem except_bind_ok {ε α β : Type} (a : α) (f : α → Except ε β) :
    (Except.ok a : Except ε α) >>= f = f a := rfl

theorem except_bind_error {ε α β : Type} (e : ε) (f : α → Except ε β) :
    (Except.error e : Except ε α) >>= f = Except.error e := rfl

theorem except_map_ok {ε α β : Type} (f : α → β) (a : α) :
    Except.map f (Except.ok a : Except ε α) = Except.ok (f a) := rfl

theorem except_map_error {ε α β : Type} (f : α → β) (e : ε) :
    Except.map f (Except.error e : Except ε α) = Except.error e := rfl

/-- C5.  Image structural validation: whenever the rewriter meets an
image-start event, then unless the next two events are a text event
followed immediately by an image-end event it fails with a
`MarkdownStructureError`; and when they are, it consumes exactly those
two events, replaces the triple by the generated fragment, and
continues with the remaining stream. -/
theorem render_events_image_lookahead (env : RenderEnv) (relative_to : String)
    (ctx : Context) (dest : String) (rest : List MdEvent) :
    ((∀ alt rest', rest ≠ MdEvent.text alt :: MdEvent.endTag .image :: rest') →
      ∃ e, render_events env relative_to ctx
          (.start (.image dest) :: rest) = .error e ∧
        e.isMarkdownStructureError = true) ∧
    (∀ alt rest', rest = MdEvent.text alt :: MdEvent.endTag .image :: rest' →
      render_events env relative_to ctx (.start (.image dest) :: rest) =
        match add_image env ctx (pathJoin relative_to dest) with
        | .error e => .error e
        | .ok (pics, ctx') =>
          match render_events env relative_to ctx' rest' with
          | .error e => .error e
          | .ok (evs, ctx'') => .ok (pictureEvents pics alt ++ evs, ctx'') ) := by
  constructor
  · intro hne
    cases rest with
    | nil => exact ⟨.noAltText, rfl, rfl⟩
    | cons e2 rest2 =>
      cases e2 with
      | text alt =>
        cases rest2 with
        | nil => exact ⟨.noEndTag, rfl, rfl⟩
        | cons e3 rest3 =>
          cases e3 with
          | endTag te =>
            cases te with
            | image => exact absurd rfl (hne alt rest3)
            | htmlBlock => exact ⟨.noEndTag, rfl, rfl⟩
            | other k => exact ⟨.noEndTag, rfl, rfl⟩
          | start t => exact ⟨.noEndTag, rfl, rfl⟩
          | text s => exact ⟨.noEndTag, rfl, rfl⟩
          | html s => exact ⟨.noEndTag, rfl, rfl⟩
          | other k => exact ⟨.noEndTag, rfl, rfl⟩
      | start t => exact ⟨.noAltText, rfl, rfl⟩
      | endTag te => exact ⟨.noAltText, rfl, rfl⟩
      | html s => exact ⟨.noAltText, rfl, rfl⟩
      | other k => exact ⟨.noAltText, rfl, rfl⟩
  · intro alt rest' heq
    subst heq
    cases h1 : add_image env ctx (pathJoin relative_to dest) with
    | error e => simp [render_events, h1, except_bind_ok, except_bind_error]
    | ok pc =>
      obtain ⟨pics, ctx'⟩ := pc
      cases h2 : render_events env relative_to ctx' rest' with
      | error e =>
        simp [render_events, h1, h2, except_bind_ok, except_bind_error]
      | ok p => simp [render_events, h1, h2, except_bind_ok, except_bind_error]

theorem render_events_image_lookahead_witness :
    (∃ e, render_events ⟨fun _ => none, fun _ => [], fun _ => "",
        fun _ => none, fun _ _ _ => "", []⟩ "posts" ⟨⟨false⟩, [], ""⟩
        [.start (.image "x.png"), .html "q"] = .error e ∧
      e.isMarkdownStructureError = true) ∧
    (render_events ⟨fun _ => none, fun _ => [], fun _ => "",
        fun _ => none, fun _ _ _ => "", []⟩ "posts" ⟨⟨false⟩, [], ""⟩
        [.start (.image "x.png"), .text "a cat", .endTag .image] =
      match add_image ⟨fun _ => none, fun _ => [], fun _ => "",
          fun _ => none, fun _ _ _ => "", []⟩ ⟨⟨false⟩, [], ""⟩
          (pathJoin "posts" "x.png") with
        | .error e => .error e
        | .ok (pics, ctx') =>
          match render_events ⟨fun _ => none, fun _ => [], fun _ => "",
              fun _ => none, fun _ _ _ => "", []⟩ "posts" ctx' [] with
          | .error e => .error e
          | .ok (evs, ctx'') => .ok (pictureEvents pics "a cat" ++ evs, ctx'') ) :=
  ⟨(render_events_image_lookahead _ "posts" _ "x.png" [.html "q"]).1
      (by intro alt rest' h; simp at h),
   (render_events_image_lookahead _ "posts" _ "x.png"
      [.text "a cat", .endTag .image]).2 "a cat" [] rfl⟩

/-- Is this event an image-start? (used to state image-freeness) -/
def eventNotImageStart : MdEvent → Bool
  | .start (.image _) => false
  | _ => true

def noImages (events : List MdEvent) : Bool := events.all eventNotImageStart

theorem render_events_passthrough (env : RenderEnv) (relative_to : String) :
    ∀ (events : List MdEvent) (ctx : Context), noImages events = true →
      render_events env relative_to ctx events = .ok (events, ctx) := by
  intro events
  induction events with
  | nil => intro ctx _; rfl
  | cons e rest ih =>
    intro ctx h
    rw [noImages, List.all_cons, Bool.and_eq_true] at h
    have hr := ih ctx h.2
    cases e with
    | start t =>
      cases t with
      | image d => simp [eventNotImageStart] at h
      | htmlBlock => simp [render_events, hr, except_map_ok]
      | other k => simp [render_events, hr, except_map_ok]
    | endTag te => simp [render_events, hr, except_map_ok]
    | text s => simp [render_events, hr, except_map_ok]
    | html s => simp [render_events, hr, except_map_ok]
    | other k => simp [render_events, hr, except_map_ok]

/-- C7.  Non-image passthrough: on a markdown source whose event stream
contains no image-start event, the rewriter forwards every event
unchanged, so the rendered HTML is exactly the external serializer
(`push_html`, with the same tables/footnotes/strikethrough parser
configuration) applied to the original stream — byte-identical to the
serializer's standalone output — and the store is untouched. -/
theorem render_body_passthrough (env : RenderEnv) (ctx : Context)
    (relative_to md : String)
    (h : noImages (env.parseMd md) = true) :
    render_body env ctx relative_to md =
      .ok (env.pushHtml (env.parseMd md), ctx) := by
  rw [render_body, render_events_passthrough env relative_to (env.parseMd md) ctx h]
  rfl

theorem render_body_passthrough_witness :
    render_body ⟨fun _ => none,
        fun _ => [.other 0, .text "hi", .other 1, .html "<hr>"],
        fun evs => String.mk (List.replicate evs.length 'z'),
        fun _ => none, fun _ _ _ => "", []⟩
      ⟨⟨false⟩, [], ""⟩ "posts" "hi" =
      .ok (String.mk (List.replicate 4 'z'), ⟨⟨false⟩, [], ""⟩) :=
  render_body_passthrough _ _ "posts" "hi" (by decide)

/-- C6.  Picture markup and optimize semantics: a successful transcode
with `optimize` on performs exactly three registrations — the JPEG
fallback first, then the AVIF and WebP variants — and the fragment
generated from its descriptor is a `<picture>` whose `<source>`
elements come most-preferred-first (AVIF with media type `image/avif`
before WebP with `image/webp`), all before the fallback `<img>`
carrying src, alt, height and width; with `optimize` off there is
exactly one registration, `sources` is empty, the fragment has zero
`<source>` elements, and the fallback `<img>` is still present. -/
theorem add_image_picture_markup (env : RenderEnv) (ctx : Context)
    (path name alt : String) (img : DecodedImage)
    (hdec : env.openDecode path = some img)
    (hname : pathFileStem path = some name) :
    (ctx.opts.optimize = true →
      add_image env ctx path = .ok
        (⟨[⟨"/static/" ++ (name ++ "-" ++ create_hash_string img.avifBytes
              ++ ".avif"), "image/avif"⟩,
           ⟨"/static/" ++ (name ++ "-" ++ create_hash_string img.webpBytes
              ++ ".webp"), "image/webp"⟩],
          "/static/" ++ (name ++ "-" ++ create_hash_string img.jpegBytes
            ++ ".jpg"),
          img.height, img.width⟩,
         ⟨ctx.opts,
          insertKV (name ++ "-" ++ create_hash_string img.webpBytes ++ ".webp")
            img.webpBytes
            (insertKV (name ++ "-" ++ create_hash_string img.avifBytes
                ++ ".avif") img.avifBytes
              (insertKV (name ++ "-" ++ create_hash_string img.jpegBytes
                  ++ ".jpg") img.jpegBytes ctx.static_files)),
          ctx.theme_css_path⟩)) ∧
    (ctx.opts.optimize = true → ∀ p ctx2,
      add_image env ctx path = .ok (p, ctx2) →
      pictureEvents p alt =
        [.start .htmlBlock, .html "<picture>",
         .html (sourceHtml ⟨"/static/" ++ (name ++ "-"
           ++ create_hash_string img.avifBytes ++ ".avif"), "image/avif"⟩),
         .html (sourceHtml ⟨"/static/" ++ (name ++ "-"
           ++ create_hash_string img.webpBytes ++ ".webp"), "image/webp"⟩),
         .html (imgHtml p alt), .html "</picture>", .endTag .htmlBlock]) ∧
    (ctx.opts.optimize = false →
      add_image env ctx path = .ok
        (⟨[], "/static/" ++ (name ++ "-" ++ create_hash_string img.jpegBytes
            ++ ".jpg"),
          img.height, img.width⟩,
         ⟨ctx.opts,
          insertKV (name ++ "-" ++ create_hash_string img.jpegBytes ++ ".jpg")
            img.jpegBytes ctx.static_files,
          ctx.theme_css_path⟩)) ∧
    (ctx.opts.optimize = false → ∀ p ctx2,
      add_image env ctx path = .ok (p, ctx2) →
      pictureEvents p alt =
        [.start .htmlBlock, .html "<picture>",
         .html (imgHtml p alt), .html "</picture>", .endTag .htmlBlock]) := by
  have hun : add_image env ctx path =
      (if ctx.opts.optimize = true then
        Except.ok
          ((⟨[⟨"/static/" ++ (name ++ "-" ++ create_hash_string img.avifBytes
                ++ ".avif"), "image/avif"⟩,
             ⟨"/static/" ++ (name ++ "-" ++ create_hash_string img.webpBytes
                ++ ".webp"), "image/webp"⟩],
            "/static/" ++ (name ++ "-" ++ create_hash_string img.jpegBytes
              ++ ".jpg"),
            img.height, img.width⟩ : PictureImages),
           ⟨ctx.opts,
            insertKV (name ++ "-" ++ create_hash_string img.webpBytes
                ++ ".webp") img.webpBytes
              (insertKV (name ++ "-" ++ create_hash_string img.avifBytes
                  ++ ".avif") img.avifBytes
                (insertKV (name ++ "-" ++ create_hash_string img.jpegBytes
                    ++ ".jpg") img.jpegBytes ctx.static_files)),
            ctx.theme_css_path⟩)
      else
        Except.ok
          ((⟨[], "/static/" ++ (name ++ "-"
              ++ create_hash_string img.jpegBytes ++ ".jpg"),
            img.height, img.width⟩ : PictureImages),
           ⟨ctx.opts,
            insertKV (name ++ "-" ++ create_hash_string img.jpegBytes
                ++ ".jpg") img.jpegBytes ctx.static_files,
            ctx.theme_css_path⟩)) := by
    rw [add_image, hdec, hname]
    by_cases hopt : ctx.opts.optimize = true
    · simp only [add_static_file, hopt, if_pos rfl]
    · have hopt2 : ctx.opts.optimize = false := Bool.eq_false_iff.mpr hopt
      simp only [add_static_file, hopt2]
  refine ⟨?_, ?_, ?_, ?_⟩
  · intro hopt
    rw [hun, if_pos hopt]
  · intro hopt p ctx2 hok
    rw [hun, if_pos hopt] at hok
    simp only [Except.ok.injEq, Prod.mk.injEq] at hok
    rw [← hok.1]
    simp [pictureEvents]
  · intro hopt
    rw [hun, if_neg (by rw [hopt]; exact Bool.false_ne_true)]
  · intro hopt p ctx2 hok
    rw [hun, if_neg (by rw [hopt]; exact Bool.false_ne_true)] at hok
    simp only [Except.ok.injEq, Prod.mk.injEq] at hok
    rw [← hok.1]
    simp [pictureEvents]

theorem add_image_picture_markup_witness :
    (add_image ⟨fun _ => some ⟨10, 20, [1], [2], [3]⟩, fun _ => [],
        fun _ => "", fun _ => none, fun _ _ _ => "", []⟩
      ⟨⟨true⟩, [], ""⟩ "posts/cat.png" = .ok
      (⟨[⟨"/static/" ++ ("cat" ++ "-" ++ create_hash_string [2] ++ ".avif"),
          "image/avif"⟩,
         ⟨"/static/" ++ ("cat" ++ "-" ++ create_hash_string [3] ++ ".webp"),
          "image/webp"⟩],
        "/static/" ++ ("cat" ++ "-" ++ create_hash_string [1] ++ ".jpg"),
        10, 20⟩,
       ⟨⟨true⟩,
        insertKV ("cat" ++ "-" ++ create_hash_string [3] ++ ".webp") [3]
          (insertKV ("cat" ++ "-" ++ create_hash_string [2] ++ ".avif") [2]
            (insertKV ("cat" ++ "-" ++ create_hash_string [1] ++ ".jpg")
              [1] [])),
        ""⟩)) ∧
    (add_image ⟨fun _ => some ⟨10, 20, [1], [2], [3]⟩, fun _ => [],
        fun _ => "", fun _ => none, fun _ _ _ => "", []⟩
      ⟨⟨false⟩, [], ""⟩ "posts/cat.png" = .ok
      (⟨[], "/static/" ++ ("cat" ++ "-" ++ create_hash_string [1] ++ ".jpg"),
        10, 20⟩,
       ⟨⟨false⟩,
        insertKV ("cat" ++ "-" ++ create_hash_string [1] ++ ".jpg") [1] [],
        ""⟩)) :=
  ⟨(add_image_picture_markup _ _ "posts/cat.png" "cat" "a"
      ⟨10, 20, [1], [2], [3]⟩ rfl (by decide)).1 rfl,
   (add_image_picture_markup _ _ "posts/cat.png" "cat" "a"
      ⟨10, 20, [1], [2], [3]⟩ rfl (by decide)).2.2.1 rfl⟩

/-! ## The name-extraction safety claim -/

/-- C10.  In `add_image`'s name extraction, a path with no file stem at
all is the only recoverable `ImageError` case; a present file stem that
is not valid UTF-8 makes `to_str().unwrap()` panic rather than return
an error; and when the file stem is valid UTF-8 the panic branch is
unreachable and the decoded stem is returned. -/
theorem image_file_name_spec (bytes : List Nat) :
    image_file_name none = .errNoName ∧
    (decodeUtf8 (fileStemBytes bytes) = none →
      image_file_name (some bytes) = .panicked) ∧
    (∀ cs, decodeUtf8 (fileStemBytes bytes) = some cs →
      image_file_name (some bytes) = .named (String.mk cs) ∧
      image_file_name (some bytes) ≠ .panicked) := by
  refine ⟨rfl, ?_, ?_⟩
  · intro h
    simp [image_file_name, h]
  · intro cs h
    refine ⟨by simp [image_file_name, h], ?_⟩
    simp [image_file_name, h]

theorem image_file_name_spec_witness :
    image_file_name (some [0x63, 0x61, 0xFF, 0x2E, 0x70, 0x6E, 0x67]) =
      .panicked ∧
    image_file_name (some [0x63, 0x61, 0x74, 0x2E, 0x70, 0x6E, 0x67]) =
      .named "cat" :=
  ⟨(image_file_name_spec [0x63, 0x61, 0xFF, 0x2E, 0x70, 0x6E, 0x67]).2.1
      (by decide),
   ((image_file_name_spec [0x63, 0x61, 0x74, 0x2E, 0x70, 0x6E, 0x67]).2.2
      "cat".data (by decide)).1⟩

/-! ## The end-to-end scenario -/

/-- Events with no image-start pass through in front of any suffix. -/
theorem render_events_append_noImages (env : RenderEnv) (relative_to : String)
    (pre : List MdEvent) (hpre : noImages pre = true) :
    ∀ (ctx : Context) (evs : List MdEvent),
      render_events env relative_to ctx (pre ++ evs) =
        (render_events env relative_to ctx evs).map
          (fun p => (pre ++ p.1, p.2)) := by
  induction pre with
  | nil =>
    intro ctx evs
    simp only [List.nil_append]
    cases h : render_events env relative_to ctx evs with
    | error e => simp [except_map_error]
    | ok p => simp [except_map_ok]
  | cons e rest ih =>
    intro ctx evs
    rw [noImages, List.all_cons, Bool.and_eq_true] at hpre
    have ihh := ih hpre.2 ctx evs
    have step : ∀ c : Context, render_events env relative_to c
        (e :: (rest ++ evs)) =
        (render_events env relative_to c (rest ++ evs)).map
          (fun p => (e :: p.1, p.2)) := by
      intro c
      cases e with
      | start t =>
        cases t with
        | image d => simp [eventNotImageStart] at hpre
        | htmlBlock => rfl
        | other k => rfl
      | endTag te => rfl
      | text s => rfl
      | html s => rfl
      | other k => rfl
    rw [List.cons_append, step ctx, ihh]
    cases h : render_events env relative_to ctx evs with
    | error e2 => simp [except_map_error]
    | ok p => simp [except_map_ok]

/-- C9 amended.  The hello scenario: one directory entry
`posts/hello/index.md` with the given frontmatter and body and a
decodable `cat.png` beside it, run with optimization disabled, yields
exactly the page `blog/posts/hello/index.html` whose document contains
the fragment `<picture><img src="/static/cat-<hash>.jpg" alt="a cat"
height=.. width=..></picture>` — a `<picture>` with zero `<source>`
children and one `<img>` child with alt `a cat` — and the `static/`
listing holds exactly two files: the always-registered theme stylesheet
`theme-<hash>.css` and `cat-<hash>.jpg`, the latter being the only one
attributable to the post. -/
theorem generate_hello_scenario (env : RenderEnv) (img : DecodedImage)
    (hdec : env.openDecode "posts/hello/cat.png" = some img)
    (hmd : env.parseMd "# Hi\n\n![a cat](cat.png)\n" =
      [.start (.other 0), .text "Hi", .endTag (.other 0), .start (.other 1),
       .start (.image "cat.png"), .text "a cat", .endTag .image,
       .endTag (.other 1)])
    (hfm : env.parseFm "title: Hello\ndate: 2024-01-01\n" =
      some ⟨"Hello", "2024-01-01"⟩)
    (hpush : ("<picture>" ++ imgHtml ⟨[], "/static/" ++ ("cat" ++ "-" ++
        create_hash_string img.jpegBytes ++ ".jpg"), img.height, img.width⟩
        "a cat" ++ "</picture>").data <:+:
      (env.pushHtml ([.start (.other 0), .text "Hi", .endTag (.other 0),
        .start (.other 1)] ++ pictureEvents ⟨[], "/static/" ++ ("cat" ++ "-" ++
        create_hash_string img.jpegBytes ++ ".jpg"), img.height, img.width⟩
        "a cat" ++ [.endTag (.other 1)])).data)
    (htempl : ∀ t b p, b.data <:+: (env.renderTemplate t b p).data) :
    ∃ doc : String,
      generate env false [⟨true, "hello",
          "---\ntitle: Hello\ndate: 2024-01-01\n---\n# Hi\n\n![a cat](cat.png)\n"⟩] =
        .ok ([("blog/posts/hello/index.html", doc)],
          [("theme" ++ "-" ++ create_hash_string env.themeCss ++ ".css",
            env.themeCss),
           ("cat" ++ "-" ++ create_hash_string img.jpegBytes ++ ".jpg",
            img.jpegBytes)]) ∧
      ("<picture>" ++ imgHtml ⟨[], "/static/" ++ ("cat" ++ "-" ++
        create_hash_string img.jpegBytes ++ ".jpg"), img.height, img.width⟩
        "a cat" ++ "</picture>").data <:+: doc.data := by
  have hload : load_frontmatter env.parseFm
      "---\ntitle: Hello\ndate: 2024-01-01\n---\n# Hi\n\n![a cat](cat.png)\n" =
      .ok (⟨"Hello", "2024-01-01"⟩, "# Hi\n\n![a cat](cat.png)\n") := by
    have h1 : strDropFront "---\n"
        "---\ntitle: Hello\ndate: 2024-01-01\n---\n# Hi\n\n![a cat](cat.png)\n" =
        some "title: Hello\ndate: 2024-01-01\n---\n# Hi\n\n![a cat](cat.png)\n" := by
      decide
    have h2 : strSplitOnce "---\n"
        "title: Hello\ndate: 2024-01-01\n---\n# Hi\n\n![a cat](cat.png)\n" =
        some ("title: Hello\ndate: 2024-01-01\n", "# Hi\n\n![a cat](cat.png)\n") := by
      decide
    simp only [load_frontmatter, h1, h2, hfm]
  have hcp : collect_posts env "posts" [⟨true, "hello",
      "---\ntitle: Hello\ndate: 2024-01-01\n---\n# Hi\n\n![a cat](cat.png)\n"⟩] =
      .ok [⟨"hello", "posts" ++ "/" ++ "hello", ⟨"Hello", "2024-01-01"⟩,
        "# Hi\n\n![a cat](cat.png)\n"⟩] := by
    simp only [collect_posts, collect_post, post_name_of, hload,
      except_bind_ok, if_pos]
  have hrel : ("posts" ++ "/" ++ "hello" : String) = "posts/hello" := by decide
  have hji : pathJoin "posts/hello" "cat.png" = "posts/hello/cat.png" := by
    decide
  have hstem : pathFileStem "posts/hello/cat.png" = some "cat" := by decide
  have hne : ("cat-" ++ create_hash_string img.jpegBytes ++ ".jpg") ≠
      ("theme-" ++ create_hash_string env.themeCss ++ ".css") := by
    intro h
    have hdata := congrArg String.data h
    simp only [String.data_append] at hdata
    simp at hdata
  have haddimg : add_image env
      ⟨⟨false⟩,
       insertKV ("theme" ++ "-" ++ create_hash_string env.themeCss ++ ".css")
         env.themeCss [],
       "/static/" ++ ("theme" ++ "-" ++ create_hash_string env.themeCss
         ++ ".css")⟩
      "posts/hello/cat.png" =
      .ok (⟨[], "/static/" ++ ("cat" ++ "-" ++
          create_hash_string img.jpegBytes ++ ".jpg"),
        img.height, img.width⟩,
        ⟨⟨false⟩,
         insertKV ("cat" ++ "-" ++ create_hash_string img.jpegBytes ++ ".jpg")
           img.jpegBytes
           (insertKV ("theme" ++ "-" ++ create_hash_string env.themeCss
             ++ ".css") env.themeCss []),
         "/static/" ++ ("theme" ++ "-" ++ create_hash_string env.themeCss
           ++ ".css")⟩) := by
    simp only [add_image, hdec, hstem, add_static_file]
    rfl
  have himgstep : render_events env "posts/hello"
      ⟨⟨false⟩,
       insertKV ("theme" ++ "-" ++ create_hash_string env.themeCss ++ ".css")
         env.themeCss [],
       "/static/" ++ ("theme" ++ "-" ++ create_hash_string env.themeCss
         ++ ".css")⟩
      [.start (.image "cat.png"), .text "a cat", .endTag .image,
       .endTag (.other 1)] =
      .ok (pictureEvents ⟨[], "/static/" ++ ("cat" ++ "-" ++
          create_hash_string img.jpegBytes ++ ".jpg"),
          img.height, img.width⟩ "a cat" ++ [.endTag (.other 1)],
        ⟨⟨false⟩,
         insertKV ("cat" ++ "-" ++ create_hash_string img.jpegBytes ++ ".jpg")
           img.jpegBytes
           (insertKV ("theme" ++ "-" ++ create_hash_string env.themeCss
             ++ ".css") env.themeCss []),
         "/static/" ++ ("theme" ++ "-" ++ create_hash_string env.themeCss
           ++ ".css")⟩) := by
    simp only [render_events, hji, haddimg, except_bind_ok, except_map_ok]
  have hrender : render_events env "posts/hello"
      ⟨⟨false⟩,
       insertKV ("theme" ++ "-" ++ create_hash_string env.themeCss ++ ".css")
         env.themeCss [],
       "/static/" ++ ("theme" ++ "-" ++ create_hash_string env.themeCss
         ++ ".css")⟩
      [.start (.other 0), .text "Hi", .endTag (.other 0), .start (.other 1),
       .start (.image "cat.png"), .text "a cat", .endTag .image,
       .endTag (.other 1)] =
      .ok ([.start (.other 0), .text "Hi", .endTag (.other 0),
          .start (.other 1)] ++ pictureEvents ⟨[], "/static/" ++ ("cat" ++ "-"
          ++ create_hash_string img.jpegBytes ++ ".jpg"),
          img.height, img.width⟩ "a cat" ++ [.endTag (.other 1)],
        ⟨⟨false⟩,
         insertKV ("cat" ++ "-" ++ create_hash_string img.jpegBytes ++ ".jpg")
           img.jpegBytes
           (insertKV ("theme" ++ "-" ++ create_hash_string env.themeCss
             ++ ".css") env.themeCss []),
         "/static/" ++ ("theme" ++ "-" ++ create_hash_string env.themeCss
           ++ ".css")⟩) := by
    have hsplit : ([.start (.other 0), .text "Hi", .endTag (.other 0),
        .start (.other 1), .start (.image "cat.png"), .text "a cat",
        .endTag .image, .endTag (.other 1)] : List MdEvent) =
        [.start (.other 0), .text "Hi", .endTag (.other 0), .start (.other 1)]
          ++ [.start (.image "cat.png"), .text "a cat", .endTag .image,
              .endTag (.other 1)] := rfl
    rw [hsplit, render_events_append_noImages env "posts/hello" _ (by decide),
      himgstep]
    simp [except_map_ok, List.append_assoc]
  have hbody : render_body env
      ⟨⟨false⟩,
       insertKV ("theme" ++ "-" ++ create_hash_string env.themeCss ++ ".css")
         env.themeCss [],
       "/static/" ++ ("theme" ++ "-" ++ create_hash_string env.themeCss
         ++ ".css")⟩
      "posts/hello" "# Hi\n\n![a cat](cat.png)\n" =
      .ok (env.pushHtml ([.start (.other 0), .text "Hi", .endTag (.other 0),
          .start (.other 1)] ++ pictureEvents ⟨[], "/static/" ++ ("cat" ++ "-"
          ++ create_hash_string img.jpegBytes ++ ".jpg"),
          img.height, img.width⟩ "a cat" ++ [.endTag (.other 1)]),
        ⟨⟨false⟩,
         insertKV ("cat" ++ "-" ++ create_hash_string img.jpegBytes ++ ".jpg")
           img.jpegBytes
           (insertKV ("theme" ++ "-" ++ create_hash_string env.themeCss
             ++ ".css") env.themeCss []),
         "/static/" ++ ("theme" ++ "-" ++ create_hash_string env.themeCss
           ++ ".css")⟩) := by
    rw [render_body, hmd, hrender]
    simp [except_map_ok]
  have hstatics : insertKV ("cat" ++ "-" ++ create_hash_string img.jpegBytes
        ++ ".jpg") img.jpegBytes
      (insertKV ("theme" ++ "-" ++ create_hash_string env.themeCss ++ ".css")
        env.themeCss []) =
      [("theme" ++ "-" ++ create_hash_string env.themeCss ++ ".css",
        env.themeCss),
       ("cat" ++ "-" ++ create_hash_string img.jpegBytes ++ ".jpg",
        img.jpegBytes)] := by
    simp [insertKV, hne]
  have hpage : ("blog/posts/" ++ "hello" ++ "/index.html" : String) =
      "blog/posts/hello/index.html" := by decide
  refine ⟨env.renderTemplate "Hello"
      (env.pushHtml ([.start (.other 0), .text "Hi", .endTag (.other 0),
        .start (.other 1)] ++ pictureEvents ⟨[], "/static/" ++ ("cat" ++ "-"
        ++ create_hash_string img.jpegBytes ++ ".jpg"),
        img.height, img.width⟩ "a cat" ++ [.endTag (.other 1)]))
      ("/static/" ++ ("theme" ++ "-" ++ create_hash_string env.themeCss
        ++ ".css")), ?_, ?_⟩
  · simp only [generate, add_static_file, hcp, except_bind_ok]
    simp only [hrel]
    simp only [generate_posts, render_post, hbody, except_map_ok,
      except_bind_ok]
    simp only [hpage, hstatics]
  · exact List.IsInfix.trans hpush (htempl _ _ _)

/-- C9 counterexample.  With a concrete environment for the hello
scenario (theme stylesheet bytes `[42]`, a decodable `cat.png`,
optimization disabled), the run writes the expected page but the
`static/` listing contains TWO files — `theme-<hash>.css` and
`cat-<hash>.jpg` — not exactly one, refuting "produces exactly one new
file under `static/`". -/
theorem generate_hello_cx :
    (generate ⟨fun _ => some ⟨7, 9, [1], [2], [3]⟩,
        fun _ => [.start (.other 0), .text "Hi", .endTag (.other 0),
          .start (.other 1), .start (.image "cat.png"), .text "a cat",
          .endTag .image, .endTag (.other 1)],
        fun evs => String.join (evs.filterMap (fun e =>
          match e with | .html s => some s | _ => none)),
        fun s => if s = "title: Hello\ndate: 2024-01-01\n" then
          some ⟨"Hello", "2024-01-01"⟩ else none,
        fun _ b _ => "<html>" ++ b ++ "</html>",
        [42]⟩ false
      [⟨true, "hello",
        "---\ntitle: Hello\ndate: 2024-01-01\n---\n# Hi\n\n![a cat](cat.png)\n"⟩]).map
      (fun r => (r.1.map Prod.fst, r.2.map Prod.fst, r.2.length)) =
    .ok (["blog/posts/hello/index.html"],
      ["theme-" ++ create_hash_string [42] ++ ".css",
       "cat-" ++ create_hash_string [1] ++ ".jpg"], 2) ∧ (2 : Nat) ≠ 1 := by
  exact ⟨by decide, by decide⟩

theorem generate_hello_scenario_witness :
    ∃ doc : String,
      generate ⟨fun _ => some ⟨7, 9, [1], [2], [3]⟩,
          fun _ => [.start (.other 0), .text "Hi", .endTag (.other 0),
            .start (.other 1), .start (.image "cat.png"), .text "a cat",
            .endTag .image, .endTag (.other 1)],
          fun evs => String.join (evs.filterMap (fun e =>
            match e with | .html s => some s | _ => none)),
          fun s => if s = "title: Hello\ndate: 2024-01-01\n" then
            some ⟨"Hello", "2024-01-01"⟩ else none,
          fun _ b _ => "<html>" ++ b ++ "</html>",
          [42]⟩ false
        [⟨true, "hello",
          "---\ntitle: Hello\ndate: 2024-01-01\n---\n# Hi\n\n![a cat](cat.png)\n"⟩] =
        .ok ([("blog/posts/hello/index.html", doc)],
          [("theme" ++ "-" ++ create_hash_string [42] ++ ".css", [42]),
           ("cat" ++ "-" ++ create_hash_string [1] ++ ".jpg", [1])]) ∧
      ("<picture>" ++ imgHtml ⟨[], "/static/" ++ ("cat" ++ "-" ++
        create_hash_string [1] ++ ".jpg"), 7, 9⟩ "a cat" ++
        "</picture>").data <:+: doc.data :=
  generate_hello_scenario _ ⟨7, 9, [1], [2], [3]⟩ rfl rfl (by decide)
    (by decide)
    (fun t b p => by
      rw [String.data_append, String.data_append]
      exact List.infix_append _ _ _)

end Blogamer
